import Mathlib

/-
Verification of the ssh module (src/ssh.rs) of the tsunami crate.

The module has three operations:
  * Session::connect  - dial a TCP socket with a bounded retry loop,
    perform the ssh handshake, and authenticate with a decoded private key;
  * Session::cmd_raw  - open an exec channel for a command and read its
    stdout to end-of-stream, returning the raw bytes;
  * Session::cmd      - cmd_raw followed by strict UTF-8 decoding.

External collaborators (thrussh_keys::decode_secret_key, the TCP dial,
async_ssh handshake and authentication, the exec channel) are modelled as
oracle parameters; the control flow of ssh.rs itself is translated
line by line.  Time is modelled in milliseconds: the per-attempt deadline
of Duration::from_secs(3) is 3000, the overall budget of
Duration::from_secs(120) is 120000.  Errors mirror failure::Context: a
base cause wrapped in zero or more context strings.
-/

/-- A decoded private key (the output of thrussh_keys::decode_secret_key),
abstract: only its identity matters. -/
abbrev Key := Nat

/-- The underlying async_ssh session object, abstract. -/
abbrev AsyncSshSession := Nat

/-- An established SSH session: wraps the underlying async_ssh session
(field ssh of struct Session in ssh.rs). -/
structure Session where
  ssh : AsyncSshSession
deriving DecidableEq

/-- An error in the style of failure::Error / failure::Context: a base
cause (its display string) wrapped in zero or more context messages. -/
inductive Err
  | base (msg : String)
  | context (ctx : String) (cause : Err)
deriving DecidableEq

/-- Observable events of one Session::connect invocation, used to state
how often the key is decoded, how many TCP dials happen, and in which
order the phases run. -/
inductive Event
  | decodeCall (input : String)
  | dialAttempt (i : Nat)
  | handshakeCall (sock : Nat)
  | authCall (username : String) (key : Key)
deriving DecidableEq

/-- Behaviour of the network during the dial loop: attempt i takes
dur i milliseconds (the Deadline of 3 seconds bounds this in reality),
and either yields a socket (res i = some sock, i.e. the deadline-wrapped
TcpStream::connect resolved Ok) or fails (res i = none, covering both a
connection error and a deadline timeout), with cause i the display of
the underlying DeadlineError. -/
structure DialBehavior where
  dur : Nat → Nat
  res : Nat → Option Nat
  cause : Nat → String

/-- Wall-clock time (ms since start) at which dial attempt i resolves:
attempts run back to back with no inter-attempt delay. -/
def endT (b : DialBehavior) : Nat → Nat
  | 0 => b.dur 0
  | i + 1 => endT b i + b.dur (i + 1)

/-- Wall-clock time (ms since start) at which dial attempt i begins. -/
def startT (b : DialBehavior) : Nat → Nat
  | 0 => 0
  | i + 1 => endT b i

/-- Result of the futures::future::loop_fn retry loop of ssh.rs lines
37-48.  pending records fuel exhaustion (the loop is still running);
ok and err record the number of attempts made and the elapsed time. -/
inductive LoopRes
  | pending (next : Nat) (t : Nat)
  | ok (sock : Nat) (attempts : Nat) (t : Nat)
  | err (cause : String) (attempts : Nat) (t : Nat)
deriving DecidableEq

/-- The dial events emitted by n loop iterations starting at attempt i. -/
def dialEvs : Nat → Nat → List Event
  | _, 0 => []
  | i, n + 1 => Event.dialAttempt i :: dialEvs (i + 1) n

/-- The retry loop of Session::connect (ssh.rs lines 37-48): each
iteration runs one deadline-bounded TcpStream::connect.  On Ok it breaks
with the socket; on Err it continues if start.elapsed() is at most the
budget and otherwise fails with the underlying cause.  fuel bounds the
number of iterations we unroll; i is the attempt index and t the elapsed
time when the attempt begins. -/
def dialLoop (b : DialBehavior) (budget : Nat) : Nat → Nat → Nat → LoopRes × List Event
  | 0, i, t => (LoopRes.pending i t, [])
  | fuel + 1, i, t =>
    let tEnd := t + b.dur i
    match b.res i with
    | some c => (LoopRes.ok c (i + 1) tEnd, [Event.dialAttempt i])
    | none =>
      if tEnd ≤ budget then
        let p := dialLoop b budget fuel (i + 1) tEnd
        (p.1, Event.dialAttempt i :: p.2)
      else
        (LoopRes.err (b.cause i) (i + 1) tEnd, [Event.dialAttempt i])

/-- Behaviour of the ssh library: async_ssh::Session::new over a socket
(the handshake) and Session::authenticate_key; errors carry the display
string produced by format_err of the debug representation. -/
structure SshEnv where
  handshake : Nat → Except String Nat
  authenticate_key : Nat → String → Key → Except String Nat

/-- Context string on the dial-loop error (ssh.rs lines 46 and 48). -/
def connCtx : String := "failed to connect to ssh port"

/-- Context string on a handshake error (ssh.rs line 53). -/
def hsCtx : String := "failed to establish ssh session"

/-- Context string on an authentication error (ssh.rs line 59). -/
def authCtx : String := "failed to authenticate ssh session"

/-- Outcome of one Session::connect invocation.  panicked models the
unwrap() on the decode result at ssh.rs line 31 aborting the call;
pending models a run cut off by fuel while the dial loop is still
retrying. -/
inductive ConnectOutcome
  | panicked
  | pending (attempts : Nat)
  | err (e : Err)
  | ok (s : Session)
deriving DecidableEq

/-- Session::connect (ssh.rs lines 24-64), instrumented with the list of
events it performs.  It decodes the key once and unwraps (panicking on
a malformed key), then runs the dial retry loop with a 120000 ms budget,
then the handshake, then authenticate_key with the decoded key.  The
loop error is wrapped in connCtx twice: once inside the loop (line 46)
and once by the then-combinator after it (line 48). -/
def Session.connect (decode : String → Option Key) (env : SshEnv) (b : DialBehavior)
    (username : String) (keyStr : String) (fuel : Nat) : ConnectOutcome × List Event :=
  match decode keyStr with
  | none => (ConnectOutcome.panicked, [Event.decodeCall keyStr])
  | some key =>
    let p := dialLoop b 120000 fuel 0 0
    match p.1 with
    | LoopRes.pending i _ => (ConnectOutcome.pending i, Event.decodeCall keyStr :: p.2)
    | LoopRes.err cause _ _ =>
        (ConnectOutcome.err (Err.context connCtx (Err.context connCtx (Err.base cause))),
         Event.decodeCall keyStr :: p.2)
    | LoopRes.ok sock _ _ =>
      match env.handshake sock with
      | Except.error e =>
          (ConnectOutcome.err (Err.context hsCtx (Err.base e)),
           Event.decodeCall keyStr :: (p.2 ++ [Event.handshakeCall sock]))
      | Except.ok sess =>
        match env.authenticate_key sess username key with
        | Except.error e =>
            (ConnectOutcome.err (Err.context authCtx (Err.base e)),
             Event.decodeCall keyStr ::
               (p.2 ++ [Event.handshakeCall sock, Event.authCall username key]))
        | Except.ok ssh =>
            (ConnectOutcome.ok ⟨ssh⟩,
             Event.decodeCall keyStr ::
               (p.2 ++ [Event.handshakeCall sock, Event.authCall username key]))

/-- True on a dialAttempt event. -/
def isDialEv : Event → Bool
  | Event.dialAttempt _ => true
  | _ => false

/-- True on a decodeCall event. -/
def isDecodeEv : Event → Bool
  | Event.decodeCall _ => true
  | _ => false

/-- True on the session-phase events (handshake or authentication). -/
def isSessionEv : Event → Bool
  | Event.handshakeCall _ => true
  | Event.authCall _ _ => true
  | _ => false

/-- Number of TCP dial attempts recorded in a trace. -/
def countDials (l : List Event) : Nat := (l.filter isDialEv).length

/-- Number of key decodings recorded in a trace. -/
def countDecodes (l : List Event) : Nat := (l.filter isDecodeEv).length

/-- True when no dial attempt occurs after a session-phase event:
once the handshake or authentication has started, the retry loop is over
for good. -/
def noDialAfterSession : List Event → Bool
  | [] => true
  | e :: rest =>
    if isSessionEv e then rest.all (fun x => !isDialEv x)
    else noDialAfterSession rest

/-- True when the outcome is an error value (as opposed to a success, a
panic, or a still-running loop). -/
def isErrOutcome : ConnectOutcome → Bool
  | ConnectOutcome.err _ => true
  | _ => false

/-- An exec channel as cmd_raw observes it: the chunks its output stream
delivers, followed by either a clean end-of-stream (endState = none) or
a read error (endState = some e). -/
structure Channel where
  chunks : List (List Nat)
  endState : Option String
deriving DecidableEq

/-- Behaviour of Session::open_exec on the underlying ssh session:
given the session object and the command, either an open channel or an
error (its display string). -/
structure ExecEnv where
  open_exec : AsyncSshSession → String → Except String Channel

/-- The read loop of tokio_io::io::read_to_end: appends each chunk to
the buffer; a clean end-of-stream returns the accumulated buffer, an
error returns the error and discards the buffer. -/
def readLoop : List (List Nat) → Option String → List Nat → Except String (List Nat)
  | [], none, buf => Except.ok buf
  | [], some e, _ => Except.error e
  | chunk :: rest, st, buf => readLoop rest st (buf ++ chunk)

/-- tokio_io::io::read_to_end(c, buf) as used at ssh.rs line 80 (the
source keeps only the buffer component of the resulting pair, via the
map at line 84). -/
def read_to_end (c : Channel) (buf : List Nat) : Except String (List Nat) :=
  readLoop c.chunks c.endState buf

/-- All bytes of a chunk list, in order. -/
def joinChunks : List (List Nat) → List Nat
  | [] => []
  | c :: rest => c ++ joinChunks rest

/-- A single-quote character as a string (ASCII 39). -/
def sQuote : String := String.singleton (Char.ofNat 39)

/-- Context string on an open_exec error (ssh.rs line 76). -/
def execCtx (cmd : String) : String :=
  "failed to execute command " ++ sQuote ++ cmd ++ sQuote

/-- Context string on a read error (ssh.rs line 81). -/
def readCtx (cmd : String) : String :=
  "failed to read stdout of command " ++ sQuote ++ cmd ++ sQuote

/-- Session::cmd_raw (ssh.rs lines 67-87): open an exec channel for the
command (failure wrapped in execCtx), read its output to end-of-stream
into a buffer that starts empty (failure wrapped in readCtx), and return
the accumulated bytes.  Except has no partial-success constructor: on
failure no bytes are returned. -/
def Session.cmd_raw (self : Session) (env : ExecEnv) (cmd : String) :
    Except Err (List Nat) :=
  match env.open_exec self.ssh cmd with
  | Except.error e => Except.error (Err.context (execCtx cmd) (Err.base e))
  | Except.ok c =>
    match read_to_end c [] with
    | Except.error e => Except.error (Err.context (readCtx cmd) (Err.base e))
    | Except.ok b => Except.ok b

/-- True on a UTF-8 continuation byte (0x80..0xBF). -/
def isCont (b : Nat) : Bool := 0x80 ≤ b && b ≤ 0xBF

/-- Valid range of the first continuation byte of a three-byte sequence,
given its lead byte: 0xE0 excludes overlong forms, 0xED excludes
surrogates. -/
def utf8Cont3Ok (b0 b1 : Nat) : Bool :=
  if b0 == 0xE0 then 0xA0 ≤ b1 && b1 ≤ 0xBF
  else if b0 == 0xED then 0x80 ≤ b1 && b1 ≤ 0x9F
  else isCont b1

/-- Valid range of the first continuation byte of a four-byte sequence,
given its lead byte: 0xF0 excludes overlong forms, 0xF4 caps code points
at 0x10FFFF. -/
def utf8Cont4Ok (b0 b1 : Nat) : Bool :=
  if b0 == 0xF0 then 0x90 ≤ b1 && b1 ≤ 0xBF
  else if b0 == 0xF4 then 0x80 ≤ b1 && b1 ≤ 0x8F
  else isCont b1

/-- Strict UTF-8 decoding as String::from_utf8 performs it: the code
points of the byte sequence when it is valid UTF-8, none otherwise.
A decoded string is represented by its list of code points. -/
def utf8Decode : List Nat → Option (List Nat)
  | [] => some []
  | b0 :: rest =>
    if b0 ≤ 0x7F then
      (utf8Decode rest).map fun cps => b0 :: cps
    else if 0xC2 ≤ b0 && b0 ≤ 0xDF then
      match rest with
      | b1 :: r =>
        if isCont b1 then
          (utf8Decode r).map fun cps =>
            ((b0 - 0xC0) * 0x40 + (b1 - 0x80)) :: cps
        else none
      | [] => none
    else if 0xE0 ≤ b0 && b0 ≤ 0xEF then
      match rest with
      | b1 :: b2 :: r =>
        if utf8Cont3Ok b0 b1 && isCont b2 then
          (utf8Decode r).map fun cps =>
            ((b0 - 0xE0) * 0x1000 + (b1 - 0x80) * 0x40 + (b2 - 0x80)) :: cps
        else none
      | _ => none
    else if 0xF0 ≤ b0 && b0 ≤ 0xF4 then
      match rest with
      | b1 :: b2 :: b3 :: r =>
        if utf8Cont4Ok b0 b1 && isCont b2 && isCont b3 then
          (utf8Decode r).map fun cps =>
            ((b0 - 0xF0) * 0x40000 + (b1 - 0x80) * 0x1000 +
               (b2 - 0x80) * 0x40 + (b3 - 0x80)) :: cps
        else none
      | _ => none
    else none

/-- Context string on a UTF-8 decoding error (ssh.rs line 93). -/
def utf8Ctx : String := "invalid utf-8 in command output"

/-- Display of the FromUtf8Error that String::from_utf8 returns,
abstract. -/
def fromUtf8ErrMsg : String := "FromUtf8Error"

/-- Session::cmd (ssh.rs lines 90-96): cmd_raw followed by strict
String::from_utf8 with context utf8Ctx; no lossy conversion. -/
def Session.cmd (self : Session) (env : ExecEnv) (cmd : String) :
    Except Err (List Nat) :=
  match Session.cmd_raw self env cmd with
  | Except.error e => Except.error e
  | Except.ok bytes =>
    match utf8Decode bytes with
    | some cps => Except.ok cps
    | none => Except.error (Err.context utf8Ctx (Err.base fromUtf8ErrMsg))

deriving instance DecidableEq for Except

/-- Rust Deref for Session (ssh.rs lines 100-105): the target is the
underlying async_ssh session object. -/
def Session.deref (s : Session) : AsyncSshSession := s.ssh

/-- Rust DerefMut for Session (ssh.rs lines 107-111), modelled as an
in-place update of the underlying session object. -/
def Session.deref_mut (s : Session) (f : AsyncSshSession → AsyncSshSession) : Session :=
  { s with ssh := f s.ssh }

/-- A decode oracle that rejects every key material. -/
def badKeyDecode : String → Option Key := fun _ => none

/-- A decode oracle that decodes every key material to the key 7. -/
def goodKeyDecode : String → Option Key := fun _ => some 7

/-- An ssh library in which handshake and authentication both succeed. -/
def env0 : SshEnv := ⟨fun s => Except.ok s, fun s _ _ => Except.ok s⟩

/-- An ssh library in which the handshake fails. -/
def envHsFail : SshEnv :=
  ⟨fun _ => Except.error "kex failure", fun s _ _ => Except.ok s⟩

/-- An ssh library in which the handshake succeeds and authentication
fails. -/
def envAuthFail : SshEnv :=
  ⟨fun s => Except.ok s, fun _ _ _ => Except.error "access denied"⟩

/-- A network on which the first dial attempt succeeds after one second,
yielding socket 5. -/
def b0 : DialBehavior := ⟨fun _ => 1000, fun _ => some 5, fun _ => ""⟩

/-- A network on which every dial attempt fails after 50 seconds. -/
def alwaysFailDial : DialBehavior :=
  ⟨fun _ => 50000, fun _ => none, fun _ => "connection refused"⟩

/-- A network on which every dial attempt fails exactly at the 3-second
per-attempt deadline. -/
def steadyFailDial : DialBehavior :=
  ⟨fun _ => 3000, fun _ => none, fun _ => "deadline elapsed"⟩

/-- A channel delivering the bytes of "hi" in two chunks, then a clean
end-of-stream. -/
def chHi : Channel := ⟨[[104], [105]], none⟩

/-- A channel delivering one non-UTF-8 byte, then a clean end-of-stream. -/
def chBad : Channel := ⟨[[255]], none⟩

/-- A channel delivering no bytes at all before a clean end-of-stream. -/
def chEmpty : Channel := ⟨[], none⟩

/-- A channel whose stream errors after one chunk. -/
def chReadErr : Channel := ⟨[[1]], some "connection reset"⟩

/-- An exec environment handing out chHi for every command. -/
def envExecHi : ExecEnv := ⟨fun _ _ => Except.ok chHi⟩

/-- An exec environment handing out chBad for every command. -/
def envExecBad : ExecEnv := ⟨fun _ _ => Except.ok chBad⟩

/-- An exec environment handing out chEmpty for every command. -/
def envExecEmpty : ExecEnv := ⟨fun _ _ => Except.ok chEmpty⟩

/-- An exec environment handing out chReadErr for every command. -/
def envExecReadErr : ExecEnv := ⟨fun _ _ => Except.ok chReadErr⟩

/-- An exec environment on which opening the channel fails. -/
def envExecOpenFail : ExecEnv := ⟨fun _ _ => Except.error "channel open refused"⟩

theorem startT_add_dur (b : DialBehavior) : ∀ i, startT b i + b.dur i = endT b i
  | 0 => by simp [startT, endT]
  | i + 1 => by simp [startT, endT]

theorem dialLoop_succ_ok (b : DialBehavior) (budget fuel i t c : Nat)
    (h : b.res i = some c) :
    dialLoop b budget (fuel + 1) i t =
      (LoopRes.ok c (i + 1) (t + b.dur i), [Event.dialAttempt i]) := by
  simp [dialLoop, h]

theorem dialLoop_succ_cont (b : DialBehavior) (budget fuel i t : Nat)
    (h : b.res i = none) (hle : t + b.dur i ≤ budget) :
    dialLoop b budget (fuel + 1) i t =
      ((dialLoop b budget fuel (i + 1) (t + b.dur i)).1,
       Event.dialAttempt i :: (dialLoop b budget fuel (i + 1) (t + b.dur i)).2) := by
  simp [dialLoop, h, hle]

theorem dialLoop_succ_err (b : DialBehavior) (budget fuel i t : Nat)
    (h : b.res i = none) (hgt : budget < t + b.dur i) :
    dialLoop b budget (fuel + 1) i t =
      (LoopRes.err (b.cause i) (i + 1) (t + b.dur i), [Event.dialAttempt i]) := by
  simp [dialLoop, h, Nat.not_le.mpr hgt]

theorem dialLoop_events_all_dial (b : DialBehavior) (budget : Nat) :
    ∀ fuel i t e, e ∈ (dialLoop b budget fuel i t).2 → ∃ j, e = Event.dialAttempt j := by
  intro fuel
  induction fuel with
  | zero => intro i t e he; simp [dialLoop] at he
  | succ n ih =>
    intro i t e he
    rcases hres : b.res i with _ | c
    · by_cases hle : t + b.dur i ≤ budget
      · rw [dialLoop_succ_cont b budget n i t hres hle] at he
        rcases List.mem_cons.mp he with h | h
        · exact ⟨i, h⟩
        · exact ih (i + 1) (t + b.dur i) e h
      · rw [dialLoop_succ_err b budget n i t hres (Nat.not_le.mp hle)] at he
        simp at he
        exact ⟨i, he⟩
    · rw [dialLoop_succ_ok b budget n i t c hres] at he
      simp at he
      exact ⟨i, he⟩

theorem dialLoop_fail_run (b : DialBehavior) (budget : Nat) :
    ∀ d i, (∀ j, b.res j = none) →
    (∀ j, j < i + d → endT b j ≤ budget) →
    budget < endT b (i + d) →
    dialLoop b budget (d + 1) i (startT b i) =
      (LoopRes.err (b.cause (i + d)) (i + d + 1) (endT b (i + d)), dialEvs i (d + 1)) := by
  intro d
  induction d with
  | zero =>
    intro i hfail _ hover
    have h1 : startT b i + b.dur i = endT b i := startT_add_dur b i
    have h2 : budget < startT b i + b.dur i := by rw [h1]; simpa using hover
    rw [dialLoop_succ_err b budget 0 i (startT b i) (hfail i) h2]
    simp [dialEvs, h1]
  | succ d ih =>
    intro i hfail hwithin hover
    have hiw : endT b i ≤ budget := hwithin i (by omega)
    have h1 : startT b i + b.dur i = endT b i := startT_add_dur b i
    have hle : startT b i + b.dur i ≤ budget := by rw [h1]; exact hiw
    rw [dialLoop_succ_cont b budget (d + 1) i (startT b i) (hfail i) hle]
    have hstep : startT b i + b.dur i = startT b (i + 1) := by
      rw [h1]; simp [startT]
    rw [hstep]
    have ihh := ih (i + 1) hfail
      (by intro j hj; exact hwithin j (by omega))
      (by have : i + 1 + d = i + (d + 1) := by omega
          rw [this]; exact hover)
    rw [ihh]
    have he1 : i + 1 + d = i + (d + 1) := by omega
    rw [he1]
    simp [dialEvs]

theorem dialLoop_pending_run (b : DialBehavior) (budget : Nat) :
    ∀ fuel i, (∀ j, b.res j = none) →
    (∀ j, j < i + fuel → endT b j ≤ budget) →
    dialLoop b budget fuel i (startT b i) =
      (LoopRes.pending (i + fuel) (startT b (i + fuel)), dialEvs i fuel) := by
  intro fuel
  induction fuel with
  | zero => intro i _ _; simp [dialLoop, dialEvs]
  | succ n ih =>
    intro i hfail hwithin
    have hiw : endT b i ≤ budget := hwithin i (by omega)
    have h1 : startT b i + b.dur i = endT b i := startT_add_dur b i
    have hle : startT b i + b.dur i ≤ budget := by rw [h1]; exact hiw
    rw [dialLoop_succ_cont b budget n i (startT b i) (hfail i) hle]
    have hstep : startT b i + b.dur i = startT b (i + 1) := by
      rw [h1]; simp [startT]
    rw [hstep]
    have ihh := ih (i + 1) hfail (by intro j hj; exact hwithin j (by omega))
    rw [ihh]
    have he1 : i + 1 + n = i + (n + 1) := by omega
    rw [he1]
    simp [dialEvs]

theorem readLoop_none : ∀ chunks buf, readLoop chunks none buf = Except.ok (buf ++ joinChunks chunks) := by
  intro chunks
  induction chunks with
  | nil => intro buf; simp [readLoop, joinChunks]
  | cons c rest ih =>
    intro buf
    simp [readLoop, joinChunks, ih (buf ++ c), List.append_assoc]

theorem readLoop_some : ∀ chunks e buf, readLoop chunks (some e) buf = Except.error e := by
  intro chunks
  induction chunks with
  | nil => intro e buf; simp [readLoop]
  | cons c rest ih => intro e buf; simp [readLoop, ih]

theorem dial_not_session (e : Event) (h : isDialEv e = true) : isSessionEv e = false := by
  cases e <;> simp_all [isDialEv, isSessionEv]

theorem dial_not_decode (e : Event) (h : isDialEv e = true) : isDecodeEv e = false := by
  cases e <;> simp_all [isDialEv, isDecodeEv]

theorem nd_append (evs post : List Event)
    (hall : ∀ e ∈ evs, isDialEv e = true)
    (hpost : noDialAfterSession post = true) :
    noDialAfterSession (evs ++ post) = true := by
  induction evs with
  | nil => simpa using hpost
  | cons e rest ih =>
    have hd : isDialEv e = true := hall e (List.mem_cons_self e rest)
    have hs : isSessionEv e = false := dial_not_session e hd
    simp only [List.cons_append, noDialAfterSession, hs]
    simp only [Bool.false_eq_true, if_false]
    exact ih (fun x hx => hall x (List.mem_cons_of_mem e hx))

theorem all_dial_countDecodes (evs : List Event)
    (hall : ∀ e ∈ evs, isDialEv e = true) : countDecodes evs = 0 := by
  induction evs with
  | nil => simp [countDecodes]
  | cons e rest ih =>
    have hd := dial_not_decode e (hall e (List.mem_cons_self e rest))
    simp only [countDecodes, List.filter_cons, hd]
    exact ih (fun x hx => hall x (List.mem_cons_of_mem e hx))

theorem all_dial_no_auth (evs : List Event)
    (hall : ∀ e ∈ evs, isDialEv e = true) (u : String) (k : Key) :
    Event.authCall u k ∉ evs := by
  intro hmem
  have := hall _ hmem
  simp [isDialEv] at this

theorem connect_decode_none (decode : String → Option Key) (env : SshEnv)
    (b : DialBehavior) (u keyStr : String) (fuel : Nat)
    (hkey : decode keyStr = none) :
    Session.connect decode env b u keyStr fuel =
      (ConnectOutcome.panicked, [Event.decodeCall keyStr]) := by
  simp [Session.connect, hkey]

theorem connect_loop_pending (decode : String → Option Key) (env : SshEnv)
    (b : DialBehavior) (u keyStr : String) (key : Key) (fuel i t : Nat)
    (evs : List Event)
    (hkey : decode keyStr = some key)
    (hloop : dialLoop b 120000 fuel 0 0 = (LoopRes.pending i t, evs)) :
    Session.connect decode env b u keyStr fuel =
      (ConnectOutcome.pending i, Event.decodeCall keyStr :: evs) := by
  simp [Session.connect, hkey, hloop]

theorem connect_loop_err (decode : String → Option Key) (env : SshEnv)
    (b : DialBehavior) (u keyStr : String) (key : Key) (fuel n t : Nat)
    (cause : String) (evs : List Event)
    (hkey : decode keyStr = some key)
    (hloop : dialLoop b 120000 fuel 0 0 = (LoopRes.err cause n t, evs)) :
    Session.connect decode env b u keyStr fuel =
      (ConnectOutcome.err (Err.context connCtx (Err.context connCtx (Err.base cause))),
       Event.decodeCall keyStr :: evs) := by
  simp [Session.connect, hkey, hloop]

theorem connect_hs_err (decode : String → Option Key) (env : SshEnv)
    (b : DialBehavior) (u keyStr : String) (key : Key) (fuel n t sock : Nat)
    (e : String) (evs : List Event)
    (hkey : decode keyStr = some key)
    (hloop : dialLoop b 120000 fuel 0 0 = (LoopRes.ok sock n t, evs))
    (hhs : env.handshake sock = Except.error e) :
    Session.connect decode env b u keyStr fuel =
      (ConnectOutcome.err (Err.context hsCtx (Err.base e)),
       Event.decodeCall keyStr :: (evs ++ [Event.handshakeCall sock])) := by
  simp [Session.connect, hkey, hloop, hhs]

theorem connect_auth_err (decode : String → Option Key) (env : SshEnv)
    (b : DialBehavior) (u keyStr : String) (key : Key) (fuel n t sock sess : Nat)
    (e : String) (evs : List Event)
    (hkey : decode keyStr = some key)
    (hloop : dialLoop b 120000 fuel 0 0 = (LoopRes.ok sock n t, evs))
    (hhs : env.handshake sock = Except.ok sess)
    (hauth : env.authenticate_key sess u key = Except.error e) :
    Session.connect decode env b u keyStr fuel =
      (ConnectOutcome.err (Err.context authCtx (Err.base e)),
       Event.decodeCall keyStr ::
         (evs ++ [Event.handshakeCall sock, Event.authCall u key])) := by
  simp [Session.connect, hkey, hloop, hhs, hauth]

theorem connect_auth_ok (decode : String → Option Key) (env : SshEnv)
    (b : DialBehavior) (u keyStr : String) (key : Key) (fuel n t sock sess : Nat)
    (ssh : Nat) (evs : List Event)
    (hkey : decode keyStr = some key)
    (hloop : dialLoop b 120000 fuel 0 0 = (LoopRes.ok sock n t, evs))
    (hhs : env.handshake sock = Except.ok sess)
    (hauth : env.authenticate_key sess u key = Except.ok ssh) :
    Session.connect decode env b u keyStr fuel =
      (ConnectOutcome.ok ⟨ssh⟩,
       Event.decodeCall keyStr ::
         (evs ++ [Event.handshakeCall sock, Event.authCall u key])) := by
  simp [Session.connect, hkey, hloop, hhs, hauth]

theorem dialLoop_events_isDial (b : DialBehavior) (budget fuel i t : Nat) :
    ∀ e ∈ (dialLoop b budget fuel i t).2, isDialEv e = true := by
  intro e he
  rcases dialLoop_events_all_dial b budget fuel i t e he with ⟨j, rfl⟩
  rfl

/-- C1, counterexample: for key material that fails to decode, connect
does not return an error value at all: the unwrap() at ssh.rs line 31
panics, so no KeyDecodeError result is produced. -/
theorem connect_malformed_key_no_error_value :
    badKeyDecode "not a key" = none
    ∧ (Session.connect badKeyDecode env0 b0 "ubuntu" "not a key" 4).1 =
        ConnectOutcome.panicked
    ∧ isErrOutcome (Session.connect badKeyDecode env0 b0 "ubuntu" "not a key" 4).1 =
        false := by
  decide

/-- C1 (amended): for every input key material that fails to decode,
connect fails immediately by panicking (the unwrap() on the decode result
at ssh.rs line 31) before any network dial attempt is made: no TCP
connect is attempted, but the failure is a panic, not a returned
KeyDecodeError value. -/
theorem connect_malformed_key_panics (decode : String → Option Key) (env : SshEnv)
    (b : DialBehavior) (u keyStr : String) (fuel : Nat)
    (hkey : decode keyStr = none) :
    Session.connect decode env b u keyStr fuel =
      (ConnectOutcome.panicked, [Event.decodeCall keyStr])
    ∧ countDials (Session.connect decode env b u keyStr fuel).2 = 0 := by
  have h := connect_decode_none decode env b u keyStr fuel hkey
  refine ⟨h, ?_⟩
  rw [h]
  simp [countDials, isDialEv]

/-- C1, witness at a concrete malformed key. -/
theorem connect_malformed_key_panics_witness :
    badKeyDecode "----" = none
    ∧ (Session.connect badKeyDecode env0 b0 "ubuntu" "----" 4 =
        (ConnectOutcome.panicked, [Event.decodeCall "----"])
      ∧ countDials (Session.connect badKeyDecode env0 b0 "ubuntu" "----" 4).2 = 0) :=
  ⟨rfl, connect_malformed_key_panics badKeyDecode env0 b0 "ubuntu" "----" 4 rfl⟩

/-- C2: if every dial attempt fails, connect terminates with a
"failed to connect to ssh port" error wrapping the underlying cause as
soon as a failed attempt resolves past the 120000 ms budget (k is the
first such attempt), and with any fuel m that stops at or before attempt
k the loop is still retrying, so no error is produced while elapsed time
is within the budget. -/
theorem connect_all_dials_fail_budget (decode : String → Option Key) (env : SshEnv)
    (b : DialBehavior) (u keyStr : String) (key : Key) (k : Nat)
    (hkey : decode keyStr = some key)
    (hfail : ∀ j, b.res j = none)
    (hwithin : ∀ j, j < k → endT b j ≤ 120000)
    (hover : 120000 < endT b k) :
    (Session.connect decode env b u keyStr (k + 1)).1 =
      ConnectOutcome.err
        (Err.context connCtx (Err.context connCtx (Err.base (b.cause k))))
    ∧ ∀ m, m ≤ k → (Session.connect decode env b u keyStr m).1 =
        ConnectOutcome.pending m := by
  constructor
  · have hrun := dialLoop_fail_run b 120000 k 0 hfail
      (by intro j hj; exact hwithin j (by omega))
      (by simpa using hover)
    simp only [startT, Nat.zero_add] at hrun
    rw [connect_loop_err decode env b u keyStr key (k + 1) (k + 1) (endT b k)
      (b.cause k) (dialEvs 0 (k + 1)) hkey hrun]
  · intro m hm
    have hp := dialLoop_pending_run b 120000 m 0 hfail
      (by intro j hj; exact hwithin j (by omega))
    simp only [startT, Nat.zero_add] at hp
    rw [connect_loop_pending decode env b u keyStr key m m (startT b m)
      (dialEvs 0 m) hkey hp]

/-- C2, witness: with 50-second always-failing dials, attempt 2 (the
first to resolve past the budget, at 150000 ms) makes connect fail with
the doubly wrapped connect error, while a run stopping after attempt 1
(at 100000 ms, within the budget) is still retrying. -/
theorem connect_all_dials_fail_budget_witness :
    goodKeyDecode "KEYMAT" = some 7
    ∧ (∀ j, alwaysFailDial.res j = none)
    ∧ (∀ j, j < 2 → endT alwaysFailDial j ≤ 120000)
    ∧ 120000 < endT alwaysFailDial 2
    ∧ (Session.connect goodKeyDecode env0 alwaysFailDial "ubuntu" "KEYMAT" 3).1 =
        ConnectOutcome.err
          (Err.context connCtx (Err.context connCtx (Err.base "connection refused")))
    ∧ (Session.connect goodKeyDecode env0 alwaysFailDial "ubuntu" "KEYMAT" 2).1 =
        ConnectOutcome.pending 2 := by
  have hw : ∀ j, j < 2 → endT alwaysFailDial j ≤ 120000 := by
    intro j hj
    rcases j with _ | (_ | j)
    · decide
    · decide
    · omega
  have h := connect_all_dials_fail_budget goodKeyDecode env0 alwaysFailDial
    "ubuntu" "KEYMAT" 7 2 rfl (fun j => rfl) hw (by decide)
  exact ⟨rfl, fun j => rfl, hw, by decide, h.1, h.2 2 (Nat.le_refl 2)⟩

/-- C4: when the first TCP dial attempt succeeds within the per-attempt
deadline, connect performs exactly one dial attempt and proceeds
directly from it to the handshake on the obtained socket (and from there
to authentication), with no further dial. -/
theorem connect_first_dial_success_single_attempt (decode : String → Option Key)
    (env : SshEnv) (b : DialBehavior) (u keyStr : String) (key : Key)
    (sock fuel : Nat)
    (hkey : decode keyStr = some key)
    (hres : b.res 0 = some sock)
    (hdur : b.dur 0 ≤ 3000) :
    countDials (Session.connect decode env b u keyStr (fuel + 1)).2 = 1
    ∧ ∃ rest, (Session.connect decode env b u keyStr (fuel + 1)).2 =
        Event.decodeCall keyStr :: Event.dialAttempt 0 ::
          Event.handshakeCall sock :: rest := by
  have hloop : dialLoop b 120000 (fuel + 1) 0 0 =
      (LoopRes.ok sock 1 (0 + b.dur 0), [Event.dialAttempt 0]) :=
    dialLoop_succ_ok b 120000 fuel 0 0 sock hres
  rcases hhs : env.handshake sock with e | sess
  · rw [connect_hs_err decode env b u keyStr key (fuel + 1) 1 (0 + b.dur 0)
      sock e [Event.dialAttempt 0] hkey hloop hhs]
    constructor
    · simp [countDials, isDialEv]
    · exact ⟨[], by simp⟩
  · rcases hauth : env.authenticate_key sess u key with e | ssh
    · rw [connect_auth_err decode env b u keyStr key (fuel + 1) 1 (0 + b.dur 0)
        sock sess e [Event.dialAttempt 0] hkey hloop hhs hauth]
      constructor
      · simp [countDials, isDialEv]
      · exact ⟨[Event.authCall u key], by simp⟩
    · rw [connect_auth_ok decode env b u keyStr key (fuel + 1) 1 (0 + b.dur 0)
        sock sess ssh [Event.dialAttempt 0] hkey hloop hhs hauth]
      constructor
      · simp [countDials, isDialEv]
      · exact ⟨[Event.authCall u key], by simp⟩

/-- C4, witness: on a network whose first dial succeeds with socket 5
after one second, connect makes exactly one dial attempt and goes on to
the handshake on socket 5. -/
theorem connect_first_dial_success_single_attempt_witness :
    goodKeyDecode "KEYMAT" = some 7
    ∧ b0.res 0 = some 5
    ∧ b0.dur 0 ≤ 3000
    ∧ (countDials (Session.connect goodKeyDecode env0 b0 "ubuntu" "KEYMAT" 1).2 = 1
      ∧ ∃ rest, (Session.connect goodKeyDecode env0 b0 "ubuntu" "KEYMAT" 1).2 =
          Event.decodeCall "KEYMAT" :: Event.dialAttempt 0 ::
            Event.handshakeCall 5 :: rest) :=
  ⟨rfl, rfl, by decide,
   connect_first_dial_success_single_attempt goodKeyDecode env0 b0
     "ubuntu" "KEYMAT" 7 5 0 rfl rfl (by decide)⟩

/-- C5: retry covers only the TCP dial step: in every connect trace no
dial attempt occurs after a handshake or authentication event, a
handshake failure makes connect fail with context
"failed to establish ssh session", and an authentication failure makes
it fail with context "failed to authenticate ssh session"; neither is
followed by another dial. -/
theorem connect_no_dial_after_session_phase (decode : String → Option Key)
    (env : SshEnv) (b : DialBehavior) (u keyStr : String) (fuel : Nat) :
    noDialAfterSession (Session.connect decode env b u keyStr fuel).2 = true
    ∧ (∀ key sock n t evs e, decode keyStr = some key →
        dialLoop b 120000 fuel 0 0 = (LoopRes.ok sock n t, evs) →
        env.handshake sock = Except.error e →
        (Session.connect decode env b u keyStr fuel).1 =
          ConnectOutcome.err (Err.context hsCtx (Err.base e)))
    ∧ (∀ key sock n t evs sess e, decode keyStr = some key →
        dialLoop b 120000 fuel 0 0 = (LoopRes.ok sock n t, evs) →
        env.handshake sock = Except.ok sess →
        env.authenticate_key sess u key = Except.error e →
        (Session.connect decode env b u keyStr fuel).1 =
          ConnectOutcome.err (Err.context authCtx (Err.base e))) := by
  refine ⟨?_, ?_, ?_⟩
  · rcases hkey : decode keyStr with _ | key
    · rw [connect_decode_none decode env b u keyStr fuel hkey]
      simp [noDialAfterSession, isSessionEv]
    · rcases hp : dialLoop b 120000 fuel 0 0 with ⟨r, evs⟩
      have hall : ∀ x ∈ evs, isDialEv x = true := by
        intro x hx
        have h2 : (dialLoop b 120000 fuel 0 0).2 = evs := by rw [hp]
        exact dialLoop_events_isDial b 120000 fuel 0 0 x (by rw [h2]; exact hx)
      rcases r with ⟨i, t⟩ | ⟨sock, n, t⟩ | ⟨cause, n, t⟩
      · rw [connect_loop_pending decode env b u keyStr key fuel i t evs hkey hp]
        simp only [noDialAfterSession, isSessionEv]
        have := nd_append evs [] hall (by rfl)
        simpa using this
      · rcases hhs : env.handshake sock with e | sess
        · rw [connect_hs_err decode env b u keyStr key fuel n t sock e evs
            hkey hp hhs]
          simp only [noDialAfterSession, isSessionEv]
          exact nd_append evs [Event.handshakeCall sock] hall
            (by simp [noDialAfterSession, isSessionEv])
        · rcases hauth : env.authenticate_key sess u key with e | ssh
          · rw [connect_auth_err decode env b u keyStr key fuel n t sock sess e
              evs hkey hp hhs hauth]
            simp only [noDialAfterSession, isSessionEv]
            exact nd_append evs
              [Event.handshakeCall sock, Event.authCall u key] hall
              (by simp [noDialAfterSession, isSessionEv, isDialEv])
          · rw [connect_auth_ok decode env b u keyStr key fuel n t sock sess ssh
              evs hkey hp hhs hauth]
            simp only [noDialAfterSession, isSessionEv]
            exact nd_append evs
              [Event.handshakeCall sock, Event.authCall u key] hall
              (by simp [noDialAfterSession, isSessionEv, isDialEv])
      · rw [connect_loop_err decode env b u keyStr key fuel n t cause evs hkey hp]
        simp only [noDialAfterSession, isSessionEv]
        have := nd_append evs [] hall (by rfl)
        simpa using this
  · intro key sock n t evs e hkey hloop hhs
    rw [connect_hs_err decode env b u keyStr key fuel n t sock e evs hkey hloop hhs]
  · intro key sock n t evs sess e hkey hloop hhs hauth
    rw [connect_auth_err decode env b u keyStr key fuel n t sock sess e evs
      hkey hloop hhs hauth]

/-- C5, witness: with the first dial succeeding on socket 5, a failing
handshake and a failing authentication each produce their fatal error
with the stated context, and the trace never dials after the session
phase. -/
theorem connect_no_dial_after_session_phase_witness :
    goodKeyDecode "KEYMAT" = some 7
    ∧ dialLoop b0 120000 1 0 0 = (LoopRes.ok 5 1 1000, [Event.dialAttempt 0])
    ∧ envHsFail.handshake 5 = Except.error "kex failure"
    ∧ (Session.connect goodKeyDecode envHsFail b0 "ubuntu" "KEYMAT" 1).1 =
        ConnectOutcome.err (Err.context hsCtx (Err.base "kex failure"))
    ∧ envAuthFail.authenticate_key 5 "ubuntu" 7 = Except.error "access denied"
    ∧ (Session.connect goodKeyDecode envAuthFail b0 "ubuntu" "KEYMAT" 1).1 =
        ConnectOutcome.err (Err.context authCtx (Err.base "access denied"))
    ∧ noDialAfterSession
        (Session.connect goodKeyDecode envHsFail b0 "ubuntu" "KEYMAT" 1).2 =
        true := by
  refine ⟨rfl, by decide, rfl, ?_, rfl, ?_, ?_⟩
  · exact (connect_no_dial_after_session_phase goodKeyDecode envHsFail b0
      "ubuntu" "KEYMAT" 1).2.1 7 5 1 1000 [Event.dialAttempt 0] "kex failure"
      rfl (by decide) rfl
  · exact (connect_no_dial_after_session_phase goodKeyDecode envAuthFail b0
      "ubuntu" "KEYMAT" 1).2.2 7 5 1 1000 [Event.dialAttempt 0] 5 "access denied"
      rfl (by decide) rfl rfl
  · exact (connect_no_dial_after_session_phase goodKeyDecode envHsFail b0
      "ubuntu" "KEYMAT" 1).1

theorem countDecodes_trace (k : String) (evs post : List Event)
    (hall : ∀ e ∈ evs, isDialEv e = true)
    (hpost : List.filter isDecodeEv post = []) :
    countDecodes (Event.decodeCall k :: (evs ++ post)) = 1 := by
  have h0 := all_dial_countDecodes evs hall
  simp only [countDecodes] at h0
  simp [countDecodes, List.filter_cons, List.filter_append, isDecodeEv, hpost, h0]

/-- C7: for valid key material, a connect invocation records exactly one
key decoding, and every authentication event in its trace carries the
given username and exactly the key value produced by that single
decoding. -/
theorem connect_decodes_key_once (decode : String → Option Key) (env : SshEnv)
    (b : DialBehavior) (u keyStr : String) (key : Key) (fuel : Nat)
    (hkey : decode keyStr = some key) :
    countDecodes (Session.connect decode env b u keyStr fuel).2 = 1
    ∧ ∀ u2 k2,
        Event.authCall u2 k2 ∈ (Session.connect decode env b u keyStr fuel).2 →
        u2 = u ∧ k2 = key := by
  rcases hp : dialLoop b 120000 fuel 0 0 with ⟨r, evs⟩
  have hall : ∀ x ∈ evs, isDialEv x = true := by
    intro x hx
    have h2 : (dialLoop b 120000 fuel 0 0).2 = evs := by rw [hp]
    exact dialLoop_events_isDial b 120000 fuel 0 0 x (by rw [h2]; exact hx)
  have hnoauth := all_dial_no_auth evs hall
  rcases r with ⟨i, t⟩ | ⟨sock, n, t⟩ | ⟨cause, n, t⟩
  · rw [connect_loop_pending decode env b u keyStr key fuel i t evs hkey hp]
    constructor
    · have := countDecodes_trace keyStr evs [] hall rfl
      simpa using this
    · intro u2 k2 hmem
      rcases List.mem_cons.mp hmem with h | h
      · exact absurd h (by simp)
      · exact absurd h (hnoauth u2 k2)
  · rcases hhs : env.handshake sock with e | sess
    · rw [connect_hs_err decode env b u keyStr key fuel n t sock e evs hkey hp hhs]
      constructor
      · exact countDecodes_trace keyStr evs [Event.handshakeCall sock] hall
          (by simp [isDecodeEv])
      · intro u2 k2 hmem
        rcases List.mem_cons.mp hmem with h | h
        · exact absurd h (by simp)
        · rcases List.mem_append.mp h with h2 | h2
          · exact absurd h2 (hnoauth u2 k2)
          · rcases List.mem_cons.mp h2 with h3 | h3
            · exact absurd h3 (by simp)
            · simp at h3
    · rcases hauth : env.authenticate_key sess u key with e | ssh
      · rw [connect_auth_err decode env b u keyStr key fuel n t sock sess e evs
          hkey hp hhs hauth]
        constructor
        · exact countDecodes_trace keyStr evs
            [Event.handshakeCall sock, Event.authCall u key] hall
            (by simp [isDecodeEv])
        · intro u2 k2 hmem
          rcases List.mem_cons.mp hmem with h | h
          · exact absurd h (by simp)
          · rcases List.mem_append.mp h with h2 | h2
            · exact absurd h2 (hnoauth u2 k2)
            · rcases List.mem_cons.mp h2 with h3 | h3
              · exact absurd h3 (by simp)
              · rcases List.mem_cons.mp h3 with h4 | h4
                · injection h4 with ha hb
                  exact ⟨ha, hb⟩
                · simp at h4
      · rw [connect_auth_ok decode env b u keyStr key fuel n t sock sess ssh evs
          hkey hp hhs hauth]
        constructor
        · exact countDecodes_trace keyStr evs
            [Event.handshakeCall sock, Event.authCall u key] hall
            (by simp [isDecodeEv])
        · intro u2 k2 hmem
          rcases List.mem_cons.mp hmem with h | h
          · exact absurd h (by simp)
          · rcases List.mem_append.mp h with h2 | h2
            · exact absurd h2 (hnoauth u2 k2)
            · rcases List.mem_cons.mp h2 with h3 | h3
              · exact absurd h3 (by simp)
              · rcases List.mem_cons.mp h3 with h4 | h4
                · injection h4 with ha hb
                  exact ⟨ha, hb⟩
                · simp at h4
  · rw [connect_loop_err decode env b u keyStr key fuel n t cause evs hkey hp]
    constructor
    · have := countDecodes_trace keyStr evs [] hall rfl
      simpa using this
    · intro u2 k2 hmem
      rcases List.mem_cons.mp hmem with h | h
      · exact absurd h (by simp)
      · exact absurd h (hnoauth u2 k2)

/-- C7, witness: a successful concrete run decodes once and
authenticates with the decoded key 7. -/
theorem connect_decodes_key_once_witness :
    goodKeyDecode "KEYMAT" = some 7
    ∧ countDecodes (Session.connect goodKeyDecode env0 b0 "ubuntu" "KEYMAT" 1).2 = 1
    ∧ Event.authCall "ubuntu" 7 ∈
        (Session.connect goodKeyDecode env0 b0 "ubuntu" "KEYMAT" 1).2
    ∧ ("ubuntu" = "ubuntu" ∧ (7 : Key) = 7) := by
  have h := connect_decodes_key_once goodKeyDecode env0 b0 "ubuntu" "KEYMAT" 7 1 rfl
  exact ⟨rfl, h.1, by decide, h.2 "ubuntu" 7 (by decide)⟩

/-- C8: under always-failing dials, the budget of 120000 ms is checked
when an attempt resolves: the run ends in an error exactly at the first
attempt k resolving past the budget, every attempt started begins at or
before 120000 ms, and the whole loop is over by endT b k, which is at
most 123000 ms (budget plus one 3000 ms per-attempt deadline) - not by
120000 ms exactly. -/
theorem dial_budget_checked_on_failure_bound (b : DialBehavior) (k : Nat)
    (hfail : ∀ j, b.res j = none)
    (hdur : ∀ j, b.dur j ≤ 3000)
    (hwithin : ∀ j, j < k → endT b j ≤ 120000)
    (hover : 120000 < endT b k) :
    dialLoop b 120000 (k + 1) 0 0 =
      (LoopRes.err (b.cause k) (k + 1) (endT b k), dialEvs 0 (k + 1))
    ∧ endT b k ≤ 123000
    ∧ ∀ i, i ≤ k → startT b i ≤ 120000 := by
  refine ⟨?_, ?_, ?_⟩
  · have h := dialLoop_fail_run b 120000 k 0 hfail
      (by intro j hj; exact hwithin j (by omega))
      (by simpa using hover)
    simpa [startT] using h
  · cases k with
    | zero =>
      have h1 := hdur 0
      simp only [endT]
      omega
    | succ j =>
      have h1 := hwithin j (by omega)
      have h2 := hdur (j + 1)
      simp only [endT]
      omega
  · intro i hi
    cases i with
    | zero => simp [startT]
    | succ j =>
      have h1 := hwithin j (by omega)
      simpa [startT] using h1

theorem endT_steadyFailDial : ∀ j, endT steadyFailDial j = 3000 * (j + 1) := by
  intro j
  induction j with
  | zero => rfl
  | succ n ih =>
    have hd : steadyFailDial.dur (n + 1) = 3000 := rfl
    simp only [endT, ih, hd]
    ring

/-- C8, witness: with every attempt failing exactly at the 3-second
deadline, attempt 40 is the first to resolve past the budget (at
123000 ms); the loop errs there, within the 123000 ms bound, and every
attempt began at or before 120000 ms. -/
theorem dial_budget_checked_on_failure_bound_witness :
    (∀ j, steadyFailDial.res j = none)
    ∧ (∀ j, steadyFailDial.dur j ≤ 3000)
    ∧ (∀ j, j < 40 → endT steadyFailDial j ≤ 120000)
    ∧ 120000 < endT steadyFailDial 40
    ∧ dialLoop steadyFailDial 120000 41 0 0 =
        (LoopRes.err "deadline elapsed" 41 (endT steadyFailDial 40), dialEvs 0 41)
    ∧ endT steadyFailDial 40 ≤ 123000
    ∧ startT steadyFailDial 40 ≤ 120000 := by
  have hw : ∀ j, j < 40 → endT steadyFailDial j ≤ 120000 := by
    intro j hj
    rw [endT_steadyFailDial]
    omega
  have hover : 120000 < endT steadyFailDial 40 := by
    rw [endT_steadyFailDial]
    omega
  have h := dial_budget_checked_on_failure_bound steadyFailDial 40
    (fun j => rfl) (fun j => Nat.le_refl 3000) hw hover
  exact ⟨fun j => rfl, fun j => Nat.le_refl 3000, hw, hover,
    h.1, h.2.1, h.2.2 40 (Nat.le_refl 40)⟩

/-- C6: cmd_raw either fails to open the exec channel, reporting the
error with the context execCtx cmd (the quoted command name after
"failed to execute command") around the cause; or the read fails,
reported with the context readCtx cmd (the quoted command name after
"failed to read stdout of command") around the cause; or it
returns exactly the complete bytes the channel stream delivered before
its end-of-stream.  The error cases return an Except.error carrying no
bytes: there is no partial output. -/
theorem cmd_raw_contexts_and_complete_output (s : Session) (env : ExecEnv)
    (c : String) :
    (∀ e, env.open_exec s.ssh c = Except.error e →
      Session.cmd_raw s env c = Except.error (Err.context (execCtx c) (Err.base e)))
    ∧ (∀ ch e, env.open_exec s.ssh c = Except.ok ch → ch.endState = some e →
      Session.cmd_raw s env c = Except.error (Err.context (readCtx c) (Err.base e)))
    ∧ (∀ ch, env.open_exec s.ssh c = Except.ok ch → ch.endState = none →
      Session.cmd_raw s env c = Except.ok (joinChunks ch.chunks)) := by
  refine ⟨?_, ?_, ?_⟩
  · intro e h
    simp [Session.cmd_raw, h]
  · intro ch e h hend
    have hr : read_to_end ch [] = Except.error e := by
      simp [read_to_end, hend, readLoop_some]
    simp [Session.cmd_raw, h, hr]
  · intro ch h hend
    have hr : read_to_end ch [] = Except.ok (joinChunks ch.chunks) := by
      simp [read_to_end, hend, readLoop_none]
    simp [Session.cmd_raw, h, hr]

/-- C6, witness: a refused channel open yields the execute context, a
stream error yields the read context, and a clean stream yields exactly
its bytes. -/
theorem cmd_raw_contexts_and_complete_output_witness :
    envExecOpenFail.open_exec 1 "ls" = Except.error "channel open refused"
    ∧ Session.cmd_raw ⟨1⟩ envExecOpenFail "ls" =
        Except.error (Err.context (execCtx "ls") (Err.base "channel open refused"))
    ∧ envExecReadErr.open_exec 1 "ls" = Except.ok chReadErr
    ∧ Session.cmd_raw ⟨1⟩ envExecReadErr "ls" =
        Except.error (Err.context (readCtx "ls") (Err.base "connection reset"))
    ∧ envExecHi.open_exec 1 "ls" = Except.ok chHi
    ∧ Session.cmd_raw ⟨1⟩ envExecHi "ls" = Except.ok (joinChunks chHi.chunks) := by
  refine ⟨rfl, ?_, rfl, ?_, rfl, ?_⟩
  · exact (cmd_raw_contexts_and_complete_output ⟨1⟩ envExecOpenFail "ls").1
      "channel open refused" rfl
  · exact (cmd_raw_contexts_and_complete_output ⟨1⟩ envExecReadErr "ls").2.1
      chReadErr "connection reset" rfl rfl
  · exact (cmd_raw_contexts_and_complete_output ⟨1⟩ envExecHi "ls").2.2
      chHi rfl rfl

/-- C9: the read buffer starts empty and only stream bytes are appended:
on a clean end-of-stream the result of cmd_raw is exactly the bytes the
channel delivered, and for a channel delivering no bytes at all cmd_raw
returns the empty byte sequence and cmd the empty string (the empty
code-point sequence). -/
theorem cmd_raw_empty_stream_empty_result (s : Session) (env : ExecEnv)
    (c : String) (ch : Channel)
    (hopen : env.open_exec s.ssh c = Except.ok ch) :
    (ch.endState = none → Session.cmd_raw s env c = Except.ok (joinChunks ch.chunks))
    ∧ (ch.chunks = [] → ch.endState = none →
        Session.cmd_raw s env c = Except.ok []
        ∧ Session.cmd s env c = Except.ok []) := by
  constructor
  · intro hend
    have hr : read_to_end ch [] = Except.ok (joinChunks ch.chunks) := by
      simp [read_to_end, hend, readLoop_none]
    simp [Session.cmd_raw, hopen, hr]
  · intro hch hend
    have hr : read_to_end ch [] = Except.ok [] := by
      simp [read_to_end, hend, hch, readLoop_none, joinChunks]
    have hraw : Session.cmd_raw s env c = Except.ok [] := by
      simp [Session.cmd_raw, hopen, hr]
    refine ⟨hraw, ?_⟩
    simp only [Session.cmd, hraw]
    rfl

/-- C9, witness: a channel with no chunks and a clean end-of-stream gives
the empty byte result and the empty string. -/
theorem cmd_raw_empty_stream_empty_result_witness :
    envExecEmpty.open_exec 1 "true" = Except.ok chEmpty
    ∧ chEmpty.chunks = []
    ∧ chEmpty.endState = none
    ∧ Session.cmd_raw ⟨1⟩ envExecEmpty "true" = Except.ok []
    ∧ Session.cmd ⟨1⟩ envExecEmpty "true" = Except.ok [] := by
  have h := (cmd_raw_empty_stream_empty_result ⟨1⟩ envExecEmpty "true" chEmpty
    rfl).2 rfl rfl
  exact ⟨rfl, rfl, rfl, h.1, h.2⟩

/-- C3: cmd is the strict UTF-8 projection of cmd_raw: cmd propagates
every cmd_raw error unchanged; when cmd_raw succeeds with valid UTF-8
bytes, cmd succeeds with exactly their decoding; when cmd_raw succeeds
with invalid bytes, cmd_raw still holds the raw bytes while cmd fails
with the invalid-utf-8 error (no lossy conversion); and every cmd
success arises this way. -/
theorem cmd_utf8_projection_of_cmd_raw (s : Session) (env : ExecEnv)
    (c : String) :
    (∀ e, Session.cmd_raw s env c = Except.error e →
        Session.cmd s env c = Except.error e)
    ∧ (∀ bytes cps, Session.cmd_raw s env c = Except.ok bytes →
        utf8Decode bytes = some cps → Session.cmd s env c = Except.ok cps)
    ∧ (∀ bytes, Session.cmd_raw s env c = Except.ok bytes →
        utf8Decode bytes = none →
        Session.cmd s env c =
          Except.error (Err.context utf8Ctx (Err.base fromUtf8ErrMsg)))
    ∧ (∀ cps, Session.cmd s env c = Except.ok cps →
        ∃ bytes, Session.cmd_raw s env c = Except.ok bytes
          ∧ utf8Decode bytes = some cps) := by
  refine ⟨?_, ?_, ?_, ?_⟩
  · intro e h
    simp [Session.cmd, h]
  · intro bytes cps h hd
    simp [Session.cmd, h, hd]
  · intro bytes h hd
    simp [Session.cmd, h, hd]
  · intro cps h
    rcases hraw : Session.cmd_raw s env c with e | bytes
    · simp [Session.cmd, hraw] at h
    · rcases hd : utf8Decode bytes with _ | cps2
      · simp [Session.cmd, hraw, hd] at h
      · refine ⟨bytes, rfl, ?_⟩
        simp only [Session.cmd, hraw, hd] at h
        rw [hd]
        exact congrArg some (Except.ok.inj h)

/-- C3, witness: the channel delivering the single byte 255 makes
cmd_raw succeed with the raw byte while cmd fails with the
invalid-utf-8 error; the channel delivering "hi" makes both succeed. -/
theorem cmd_utf8_projection_of_cmd_raw_witness :
    Session.cmd_raw ⟨1⟩ envExecBad "cat" = Except.ok [255]
    ∧ utf8Decode [255] = none
    ∧ Session.cmd ⟨1⟩ envExecBad "cat" =
        Except.error (Err.context utf8Ctx (Err.base fromUtf8ErrMsg))
    ∧ Session.cmd_raw ⟨1⟩ envExecHi "cat" = Except.ok [104, 105]
    ∧ Session.cmd ⟨1⟩ envExecHi "cat" = Except.ok [104, 105] := by
  refine ⟨by decide, by decide, ?_, by decide, ?_⟩
  · exact (cmd_utf8_projection_of_cmd_raw ⟨1⟩ envExecBad "cat").2.2.1
      [255] (by decide) (by decide)
  · exact (cmd_utf8_projection_of_cmd_raw ⟨1⟩ envExecHi "cat").2.1
      [104, 105] [104, 105] (by decide) (by decide)

/-- C10: Session passes through to the underlying async_ssh session
object: deref yields exactly the wrapped session, deref_mut updates
exactly the wrapped session, and hence every operation m on the
underlying transport object is reachable through a Session handle by
composing with deref; the surface is not limited to connect, cmd and
cmd_raw. -/
theorem session_deref_exposes_underlying :
    (∀ s : Session, Session.deref s = s.ssh)
    ∧ (∀ (s : Session) (f : AsyncSshSession → AsyncSshSession),
        (Session.deref_mut s f).ssh = f s.ssh)
    ∧ (∀ (α : Type) (m : AsyncSshSession → α) (s : Session),
        m (Session.deref s) = m s.ssh) :=
  ⟨fun _ => rfl, fun _ _ => rfl, fun _ _ _ => rfl⟩

/-- C10, witness: pass-through at a concrete session and method. -/
theorem session_deref_exposes_underlying_witness :
    Session.deref ⟨3⟩ = 3
    ∧ (Session.deref_mut ⟨3⟩ (fun x => x + 1)).ssh = 4
    ∧ (fun x => x * 2) (Session.deref ⟨3⟩) = 6 :=
  ⟨(session_deref_exposes_underlying.1 ⟨3⟩).trans rfl,
   (session_deref_exposes_underlying.2.1 ⟨3⟩ (fun x => x + 1)).trans rfl,
   (session_deref_exposes_underlying.2.2 Nat (fun x => x * 2) ⟨3⟩).trans rfl⟩
